import Mathlib

/-!
Shallow embedding of the performance cache service
(`PerformanceCacheService`, source file `performanceCacheService`)
of the BookaPro repository, together with proofs and refutations of the
specification's claims about it.

The hot tier (`memoryCache`, a JS `Map`) is modelled as an association
list in insertion order; the durable tier (`AsyncStorage`) as an
association list from string keys to persisted records, where a record
either parses to a `CacheItem` or is corrupt (`JSON.parse` throws).
Payload values are abstracted to an identity plus the byte size of their
JSON serialization (`none` when `JSON.stringify` throws on them).
Timestamps are `Date.now()` values in milliseconds (`Nat`), threaded
explicitly as a `now` argument.
-/

set_option autoImplicit false

namespace PerfCache

/-- Item priority, `'high' | 'medium' | 'low'` in the source. -/
inductive Priority where
  | low
  | medium
  | high
deriving DecidableEq, Repr

/-- A cached payload value, abstracted to an identity and the byte size of
its JSON serialization; `serializedSize = none` models a value on which
`JSON.stringify` throws. -/
structure Value where
  id : Nat
  serializedSize : Option Nat
deriving DecidableEq, Repr

/-- Source interface `CacheItem<T>`: payload plus bookkeeping fields.
`size` is optional exactly as in the source interface. -/
structure CacheItem where
  data : Value
  timestamp : Nat
  ttl : Nat
  priority : Priority
  accessCount : Nat
  lastAccessed : Nat
  size : Option Nat
deriving DecidableEq, Repr

/-- A record in the durable tier: either a string that `JSON.parse`s back
to a `CacheItem` or a corrupt string on which parsing throws. -/
inductive PRecord where
  | good (item : CacheItem)
  | corrupt
deriving DecidableEq, Repr

/-- Source interface `CacheConfig`. -/
structure CacheConfig where
  ttl : Nat
  maxSize : Nat
  priority : Priority
  persist : Bool
deriving DecidableEq, Repr

/-- The static `CACHE_CONFIGS` table (module-level values, before any
platform-specific scaling). -/
def CACHE_CONFIGS (ns : String) : Option CacheConfig :=
  if ns = "user" then some ⟨24 * 60 * 60 * 1000, 1, .high, true⟩
  else if ns = "appointments" then some ⟨5 * 60 * 1000, 100, .high, true⟩
  else if ns = "services" then some ⟨30 * 60 * 1000, 50, .medium, true⟩
  else if ns = "providers" then some ⟨15 * 60 * 1000, 200, .medium, true⟩
  else if ns = "shops" then some ⟨60 * 60 * 1000, 100, .low, false⟩
  else if ns = "analytics" then some ⟨10 * 60 * 1000, 20, .low, false⟩
  else if ns = "images" then some ⟨60 * 60 * 1000, 50, .medium, false⟩
  else none

/-- Source method `getConfig`: table lookup with the default fallback config. -/
def getConfig (ns : String) : CacheConfig :=
  (CACHE_CONFIGS ns).getD ⟨5 * 60 * 1000, 50, .medium, false⟩

/-- Hit/miss/eviction/error counters (`cacheStats`). -/
structure Stats where
  hits : Nat
  misses : Nat
  evictions : Nat
  totalRequests : Nat
  errors : Nat
deriving DecidableEq, Repr

/-- Full mutable state of the service: the hot-tier map (in insertion
order, as a JS `Map` iterates), the stats counters, the global byte
budget and running byte counter, and the durable tier's contents. -/
structure CacheState where
  memoryCache : List (String × CacheItem)
  stats : Stats
  maxMemorySize : Nat
  currentMemorySize : Int
  storage : List (String × PRecord)
deriving DecidableEq, Repr

/-- The freshly constructed service state: empty tiers, zero counters,
`maxMemorySize = 50MB` as initialized in the source. -/
def emptyState : CacheState :=
  { memoryCache := []
    stats := ⟨0, 0, 0, 0, 0⟩
    maxMemorySize := 50 * 1024 * 1024
    currentMemorySize := 0
    storage := [] }

/-- JS `Map.prototype.set`: replace in place when the key is present
(keeping its position in iteration order), append otherwise. -/
def mapSet {α : Type} (m : List (String × α)) (k : String) (v : α) :
    List (String × α) :=
  match m with
  | [] => [(k, v)]
  | p :: t => if p.1 == k then (k, v) :: t else p :: mapSet t k v

/-- JS `Map.prototype.delete`. -/
def mapDelete {α : Type} (m : List (String × α)) (k : String) :
    List (String × α) :=
  m.filter (fun p => !(p.1 == k))

/-- Source method `generateKey`: the flattened cache key, the `cache:` prefix followed by the namespace, a colon, and the local key. -/
def generateKey (ns key : String) : String :=
  "cache:" ++ ns ++ ":" ++ key

/-- Character-level split on a separator character, the semantics of the
JS `String.prototype.split(':')` used by `getNamespaceFromKey`. -/
def splitChars (sep : Char) : List Char → List Char → List String
  | [], acc => [String.mk acc.reverse]
  | c :: cs, acc =>
    if c = sep then String.mk acc.reverse :: splitChars sep cs []
    else splitChars sep cs (c :: acc)

/-- Source method `getNamespaceFromKey`: `cacheKey.split(':')[1] || 'default'`.
An absent or empty (falsy) second segment yields `'default'`. -/
def getNamespaceFromKey (cacheKey : String) : String :=
  let parts := splitChars ':' cacheKey.data []
  match parts[1]? with
  | some s => if s = "" then "default" else s
  | none => "default"

/-- JS `key.startsWith('cache:')`. -/
def startsWithCachePfx (key : String) : Bool :=
  key.data.take 6 == "cache:".data

/-- Source method `isExpired`: `Date.now() - item.timestamp > item.ttl`. -/
def isExpired (now : Nat) (item : CacheItem) : Bool :=
  (now : Int) - (item.timestamp : Int) > (item.ttl : Int)

/-- Source method `estimateSize`: byte size of the JSON serialization, falling back to
a 1KB default when serialization throws (the throw is caught inside). -/
def estimateSize (v : Value) : Nat :=
  v.serializedSize.getD 1024

/-- The recurring source expression `item.size || this.estimateSize(item.data)`;
note that a stored size of `0` is falsy in JS and also falls back. -/
def itemSize (item : CacheItem) : Nat :=
  match item.size with
  | some n => if n = 0 then estimateSize item.data else n
  | none => estimateSize item.data

/-- Source method `canAddToMemory`: refuse when the key's namespace is at its item cap
or admitting would exceed the global byte budget. -/
def canAddToMemory (st : CacheState) (key : String) (item : CacheItem) : Bool :=
  let ns := getNamespaceFromKey key
  let config := getConfig ns
  let namespaceItems := st.memoryCache.filter
    (fun p => getNamespaceFromKey p.1 == ns)
  if config.maxSize ≤ namespaceItems.length then false
  else st.currentMemorySize + (itemSize item : Int) ≤ (st.maxMemorySize : Int)

/-- Source method `updateMemorySize`: `currentMemorySize += newSize - oldSize`, where
`oldSize` is `0` when no `oldItem` argument is passed. -/
def updateMemorySize (st : CacheState) (item : CacheItem)
    (oldItem : Option CacheItem) : CacheState :=
  { st with currentMemorySize :=
      st.currentMemorySize + (itemSize item : Int)
        - ((oldItem.map itemSize).getD 0 : Int) }

/-- Source method `updateAccess`: bump `accessCount`, refresh `lastAccessed`. -/
def updateAccess (now : Nat) (item : CacheItem) : CacheItem :=
  { item with accessCount := item.accessCount + 1, lastAccessed := now }

/-- The `priorityOrder` table from the eviction comparator. -/
def priorityOrder : Priority → Nat
  | .low => 0
  | .medium => 1
  | .high => 2

/-- The eviction comparator of `evictItems` as a strict order:
priority ascending, then `lastAccessed` ascending, then `accessCount`
ascending. -/
def evictCmpLt (a b : CacheItem) : Bool :=
  if priorityOrder a.priority ≠ priorityOrder b.priority then
    priorityOrder a.priority < priorityOrder b.priority
  else if a.lastAccessed ≠ b.lastAccessed then
    a.lastAccessed < b.lastAccessed
  else a.accessCount < b.accessCount

/-- Stable insertion into a sorted list for the strict order `lt`. -/
def insertSorted {α : Type} (lt : α → α → Bool) (x : α) :
    List α → List α
  | [] => [x]
  | y :: ys =>
    if lt y x then y :: insertSorted lt x ys else x :: y :: ys

/-- Stable sort by the strict order `lt`, the semantics of the JS
`Array.prototype.sort` call in `evictItems`. -/
def sortByLt {α : Type} (lt : α → α → Bool) : List α → List α
  | [] => []
  | x :: xs => insertSorted lt x (sortByLt lt xs)

/-- One removal step of `evictItems`: delete the entry, call
`updateMemorySize` on it (no old-item argument, as in the source), and
count an eviction. -/
def evictStep (s : CacheState) (kv : String × CacheItem) : CacheState :=
  let s1 := { s with memoryCache := mapDelete s.memoryCache kv.1 }
  let s2 := updateMemorySize s1 kv.2 none
  { s2 with stats := { s2.stats with evictions := s2.stats.evictions + 1 } }

/-- Source method `evictItems`: when the namespace holds more than `maxSize` items,
sort its entries by the comparator and remove the excess from the front. -/
def evictItems (st : CacheState) (ns : String) (maxSize : Nat) : CacheState :=
  let namespaceItems := st.memoryCache.filter
    (fun p => getNamespaceFromKey p.1 == ns)
  if namespaceItems.length ≤ maxSize then st
  else
    let sorted := sortByLt (fun a b => evictCmpLt a.2 b.2) namespaceItems
    let itemsToRemove := sorted.take (namespaceItems.length - maxSize)
    itemsToRemove.foldl evictStep st

/-- One re-insertion step of `reduceMemoryFootprint`'s rebuild loop:
`memoryCache.set` then `updateMemorySize`. -/
def restoreItem (s : CacheState) (kv : String × CacheItem) : CacheState :=
  updateMemorySize { s with memoryCache := mapSet s.memoryCache kv.1 kv.2 }
    kv.2 none

/-- Source method `reduceMemoryFootprint`: no-op at 50 items or fewer; otherwise keep
only the high/medium-priority entries, at most 75 of them, clearing the
map and the byte counter and re-inserting the keepers. -/
def reduceMemoryFootprint (st : CacheState) : CacheState :=
  if st.memoryCache.length ≤ 50 then st
  else
    let itemsToKeep := (st.memoryCache.filter
      (fun p => p.2.priority == .high || p.2.priority == .medium)).take 75
    let st1 := { st with memoryCache := [], currentMemorySize := 0 }
    itemsToKeep.foldl restoreItem st1

/-- React Native `AppStateStatus` values relevant to the listener. -/
inductive AppStateStatus where
  | active
  | background
  | inactive
deriving DecidableEq, Repr

/-- Source method `handleAppStateChange`: shrink the footprint on transition to
background or inactive, do nothing otherwise. -/
def handleAppStateChange (next : AppStateStatus) (st : CacheState) :
    CacheState :=
  match next with
  | .background => reduceMemoryFootprint st
  | .inactive => reduceMemoryFootprint st
  | .active => st

/-- One key of the hydration scan in `loadPersistedHighPriorityItems`:
read and parse the durable record; admit to the hot tier only a
high-priority, non-expired item that passes `canAddToMemory`; a parse
failure is only logged (the record is left in place). -/
def hydrateKey (now : Nat) (s : CacheState) (key : String) : CacheState :=
  match s.storage.lookup key with
  | some (.good item) =>
    if item.priority == .high && !(isExpired now item) then
      if canAddToMemory s key item then
        updateMemorySize
          { s with memoryCache := mapSet s.memoryCache key item } item none
      else s
    else s
  | some .corrupt => s
  | none => s

/-- Source method `loadPersistedHighPriorityItems`: scan every durable key with the
`cache:` prefix and hydrate each in turn. -/
def loadPersistedHighPriorityItems (st : CacheState) (now : Nat) :
    CacheState :=
  let cacheKeys := (st.storage.map Prod.fst).filter startsWithCachePfx
  cacheKeys.foldl (hydrateKey now) st

/-- Source method `get`: tier-fallthrough read. Bumps `totalRequests`; serves a fresh
hot-tier entry (with access bookkeeping) as a hit; purges an expired
hot-tier entry and returns `null` without touching hits/misses; for a
persisting namespace falls through to the durable tier, opportunistically
rehydrating a fresh record, purging an expired one as a miss, and
counting a parse failure as an error with a `null` return. -/
def get (st : CacheState) (now : Nat) (ns key : String) :
    CacheState × Option Value :=
  let stq := { st with stats :=
    { st.stats with totalRequests := st.stats.totalRequests + 1 } }
  let cacheKey := generateKey ns key
  match stq.memoryCache.lookup cacheKey with
  | some memoryItem =>
    if isExpired now memoryItem then
      let st1 := { stq with memoryCache := mapDelete stq.memoryCache cacheKey }
      (updateMemorySize st1 memoryItem none, none)
    else
      let updated := updateAccess now memoryItem
      let st1 := { stq with memoryCache := mapSet stq.memoryCache cacheKey updated }
      ({ st1 with stats := { st1.stats with hits := st1.stats.hits + 1 } },
        some updated.data)
  | none =>
    let config := getConfig ns
    if config.persist then
      match stq.storage.lookup cacheKey with
      | some (.good parsedItem) =>
        if isExpired now parsedItem then
          let st1 := { stq with storage := mapDelete stq.storage cacheKey }
          ({ st1 with stats :=
              { st1.stats with misses := st1.stats.misses + 1 } }, none)
        else
          let st1 :=
            if canAddToMemory stq cacheKey parsedItem then
              updateMemorySize
                { stq with memoryCache := mapSet stq.memoryCache cacheKey parsedItem }
                parsedItem none
            else stq
          ({ st1 with stats := { st1.stats with hits := st1.stats.hits + 1 } },
            some parsedItem.data)
      | some .corrupt =>
        ({ stq with stats :=
            { stq.stats with errors := stq.stats.errors + 1 } }, none)
      | none =>
        ({ stq with stats :=
            { stq.stats with misses := stq.stats.misses + 1 } }, none)
    else
      ({ stq with stats :=
          { stq.stats with misses := stq.stats.misses + 1 } }, none)

/-- The `CacheItem` that `set` builds for a payload. -/
def mkCacheItem (now : Nat) (ns : String) (data : Value) : CacheItem :=
  let config := getConfig ns
  { data := data
    timestamp := now
    ttl := config.ttl
    priority := config.priority
    accessCount := 1
    lastAccessed := now
    size := some (estimateSize data) }

/-- Source method `set`: build the item; admit to the hot tier when `canAddToMemory`
allows, updating the byte counter against the replaced entry and running
`evictItems`; then, for a persisting namespace, serialize the item and
write it through — a serialization throw there is caught, counted as an
error, and makes the call return `false` (the hot-tier mutation already
performed is kept). -/
def set (st : CacheState) (now : Nat) (ns key : String) (data : Value) :
    CacheState × Bool :=
  let cacheKey := generateKey ns key
  let config := getConfig ns
  let cacheItem := mkCacheItem now ns data
  let oldItem := st.memoryCache.lookup cacheKey
  let st1 :=
    if canAddToMemory st cacheKey cacheItem then
      let s := updateMemorySize
        { st with memoryCache := mapSet st.memoryCache cacheKey cacheItem }
        cacheItem oldItem
      evictItems s ns config.maxSize
    else st
  if config.persist then
    match data.serializedSize with
    | some _ =>
      ({ st1 with storage := mapSet st1.storage cacheKey (.good cacheItem) },
        true)
    | none =>
      ({ st1 with stats :=
          { st1.stats with errors := st1.stats.errors + 1 } }, false)
  else (st1, true)

/-- Source method `remove`: delete the hot-tier entry, calling `updateMemorySize` on
the removed item exactly as the source does, and delete the durable copy
for a persisting namespace. -/
def remove (st : CacheState) (ns key : String) : CacheState × Bool :=
  let cacheKey := generateKey ns key
  let oldItem := st.memoryCache.lookup cacheKey
  let st1 := { st with memoryCache := mapDelete st.memoryCache cacheKey }
  let st2 :=
    match oldItem with
    | some it => updateMemorySize st1 it none
    | none => st1
  let config := getConfig ns
  if config.persist then
    ({ st2 with storage := mapDelete st2.storage cacheKey }, true)
  else (st2, true)

/-- One hot-tier removal step of `clearNamespace`. -/
def clearStep (s : CacheState) (key : String) : CacheState :=
  match s.memoryCache.lookup key with
  | some it =>
    updateMemorySize { s with memoryCache := mapDelete s.memoryCache key }
      it none
  | none => { s with memoryCache := mapDelete s.memoryCache key }

/-- Source method `clearNamespace`: drop every hot-tier entry of the namespace; for a
persisting namespace, `multiRemove` every durable key whose extracted
namespace matches — the key list is not restricted to the `cache:`
prefix. -/
def clearNamespace (st : CacheState) (ns : String) : CacheState × Bool :=
  let keysToRemove := (st.memoryCache.map Prod.fst).filter
    (fun k => getNamespaceFromKey k == ns)
  let st1 := keysToRemove.foldl clearStep st
  let config := getConfig ns
  if config.persist then
    let allKeys := st1.storage.map Prod.fst
    let namespacePersistentKeys := allKeys.filter
      (fun k => getNamespaceFromKey k == ns)
    if 0 < namespacePersistentKeys.length then
      ({ st1 with storage :=
          st1.storage.filter (fun p => !(namespacePersistentKeys.contains p.1)) },
        true)
    else (st1, true)
  else (st1, true)

/-! ### Concrete payloads, items and states used in witnesses and
counterexamples -/

/-- A payload that serializes to 10 bytes. -/
def v10 : Value := ⟨1, some 10⟩

/-- A payload that serializes to 7 bytes. -/
def vB : Value := ⟨3, some 7⟩

/-- A payload on which `JSON.stringify` throws. -/
def badValue : Value := ⟨2, none⟩

/-- A payload whose serialization is 60MB, larger than the 50MB global
byte budget. -/
def hugeValue : Value := ⟨4, some (60 * 1024 * 1024)⟩

/-- The state after a single `set` into the `user` namespace (whose
`maxSize` is 1): the namespace is at its item cap. -/
def stUserOne : CacheState := (set emptyState 0 "user" "a" v10).1

/-- A high-priority item written at time 0 with a 100ms ttl: expired at
any time after 100. -/
def expiredUserItem : CacheItem :=
  { data := ⟨5, some 10⟩, timestamp := 0, ttl := 100, priority := .high,
    accessCount := 1, lastAccessed := 0, size := some 10 }

/-- A hot tier holding one expired `user` item. -/
def stExpiredHot : CacheState :=
  { emptyState with memoryCache := [("cache:user:k", expiredUserItem)] }

/-- A hot tier holding one expired `appointments` item. -/
def stExpiredHot2 : CacheState :=
  { emptyState with memoryCache := [("cache:appointments:k", expiredUserItem)] }

/-- A fresh high-priority item (ttl 1000ms, written at time 0). -/
def freshHigh : CacheItem :=
  { data := ⟨9, some 10⟩, timestamp := 0, ttl := 1000, priority := .high,
    accessCount := 1, lastAccessed := 0, size := some 10 }

/-- A durable tier holding one fresh high-priority record. -/
def stHyd : CacheState :=
  { emptyState with storage := [("cache:user:h", .good freshHigh)] }

/-- A durable tier holding one corrupt record and one expired record. -/
def stHydBad : CacheState :=
  { emptyState with
    storage := [("cache:user:c", .corrupt),
                ("cache:user:e", .good expiredUserItem)] }

/-- A durable tier mixing a key without the `cache:` prefix whose second
segment is `user`, a `cache:`-prefixed `user` key, and a `services`
key. -/
def stClear : CacheState :=
  { emptyState with
    storage := [("x:user:y", .good freshHigh),
                ("cache:user:z", .good freshHigh),
                ("cache:services:w", .good freshHigh)] }

/-- Priorities cycling low/medium/high by index. -/
def prioOfIdx (i : Nat) : Priority :=
  if i % 3 = 0 then .low else if i % 3 = 1 then .medium else .high

/-- A small item of mixed priority for the footprint-shrink scenario. -/
def bigItem (i : Nat) : CacheItem :=
  { data := ⟨i, some 1⟩, timestamp := 0, ttl := 1000000,
    priority := prioOfIdx i, accessCount := 1, lastAccessed := 0,
    size := some 1 }

/-- A hot tier holding 51 items of mixed priorities. -/
def bigState : CacheState :=
  { emptyState with
    memoryCache := (List.range 51).map (fun i => (toString i, bigItem i)) }

/-! ### Association-list lemmas for the JS `Map` model -/

theorem lookup_mapSet_self {α : Type} (m : List (String × α)) (k : String)
    (v : α) : (mapSet m k v).lookup k = some v := by
  induction m with
  | nil => simp [mapSet, List.lookup]
  | cons p t ih =>
    cases hp : p.1 == k with
    | true =>
      simp [mapSet, hp, List.lookup]
    | false =>
      have hk : (k == p.1) = false := by
        rw [beq_eq_false_iff_ne] at hp ⊢
        exact fun he => hp he.symm
      simp [mapSet, hp, List.lookup, hk, ih]

theorem lookup_mapSet_ne {α : Type} (m : List (String × α)) (k : String)
    (v : α) (k' : String) (h : k' ≠ k) :
    (mapSet m k v).lookup k' = m.lookup k' := by
  induction m with
  | nil =>
    have hk : (k' == k) = false := by rw [beq_eq_false_iff_ne]; exact h
    simp [mapSet, List.lookup, hk]
  | cons p t ih =>
    cases hp : p.1 == k with
    | true =>
      have hp' : p.1 = k := eq_of_beq hp
      have hk : (k' == k) = false := by rw [beq_eq_false_iff_ne]; exact h
      have hk2 : (k' == p.1) = false := by rw [hp']; exact hk
      simp [mapSet, hp, List.lookup, hk, hk2]
    | false =>
      cases hk : k' == p.1 with
      | true => simp [mapSet, hp, List.lookup, hk]
      | false => simp [mapSet, hp, List.lookup, hk, ih]

theorem lookup_mapDelete_self {α : Type} (m : List (String × α))
    (k : String) : (mapDelete m k).lookup k = none := by
  induction m with
  | nil => rfl
  | cons p t ih =>
    cases hp : p.1 == k with
    | true => simpa [mapDelete, hp] using ih
    | false =>
      have hk : (k == p.1) = false := by
        rw [beq_eq_false_iff_ne] at hp ⊢
        exact fun he => hp he.symm
      simpa [mapDelete, hp, List.lookup, hk] using ih

theorem lookup_mapDelete_ne {α : Type} (m : List (String × α))
    (k k' : String) (h : k' ≠ k) :
    (mapDelete m k).lookup k' = m.lookup k' := by
  induction m with
  | nil => rfl
  | cons p t ih =>
    cases hp : p.1 == k with
    | true =>
      have hp' : p.1 = k := eq_of_beq hp
      have hk : (k' == p.1) = false := by
        rw [beq_eq_false_iff_ne, hp']
        exact h
      simpa [mapDelete, hp, List.lookup, hk] using ih
    | false =>
      cases hk : k' == p.1 with
      | true => simp [mapDelete, hp, List.lookup, hk]
      | false => simpa [mapDelete, hp, List.lookup, hk] using ih

theorem mem_mapSet {α : Type} (m : List (String × α)) (k : String) (v : α)
    (p : String × α) (hp : p ∈ mapSet m k v) : p ∈ m ∨ p = (k, v) := by
  induction m with
  | nil =>
    simp only [mapSet, List.mem_singleton] at hp
    exact Or.inr hp
  | cons q t ih =>
    cases hq : q.1 == k with
    | true =>
      simp only [mapSet, hq, if_true, List.mem_cons] at hp
      rcases hp with hp | hp
      · exact Or.inr hp
      · exact Or.inl (List.mem_cons_of_mem _ hp)
    | false =>
      simp only [mapSet, hq, if_false] at hp
      cases hp with
      | head => exact Or.inl (List.mem_cons_self _ _)
      | tail _ h1 =>
        cases ih h1 with
        | inl h2 => exact Or.inl (List.mem_cons_of_mem _ h2)
        | inr h2 => exact Or.inr h2

theorem length_mapSet_le {α : Type} (m : List (String × α)) (k : String)
    (v : α) : (mapSet m k v).length ≤ m.length + 1 := by
  induction m with
  | nil => simp [mapSet]
  | cons p t ih =>
    cases hp : p.1 == k with
    | true => simp [mapSet, hp]
    | false =>
      simp only [mapSet, hp, if_false, List.length_cons]
      exact Nat.succ_le_succ ih

theorem length_filter_key_mapSet {α : Type} (m : List (String × α))
    (k : String) (v : α) (q : String → Bool) :
    ((mapSet m k v).filter (fun p => q p.1)).length ≤
      (m.filter (fun p => q p.1)).length + 1 := by
  induction m with
  | nil =>
    cases hq : q k with
    | true => simp [mapSet, List.filter, hq]
    | false => simp [mapSet, List.filter, hq]
  | cons p t ih =>
    cases hp : p.1 == k with
    | true =>
      have hp' : p.1 = k := eq_of_beq hp
      cases hq : q k with
      | true => simp [mapSet, hp, List.filter, hq, hp']
      | false => simp [mapSet, hp, List.filter, hq, hp', Nat.le_succ_of_le]
    | false =>
      cases hq : q p.1 with
      | true =>
        simp only [mapSet, hp, if_false, List.filter, hq, List.length_cons]
        exact Nat.succ_le_succ ih
      | false =>
        simpa [mapSet, hp, List.filter, hq] using ih

/-! ### Preservation lemmas for the state operations -/

@[simp] theorem updateMemorySize_memoryCache (st : CacheState)
    (item : CacheItem) (oldItem : Option CacheItem) :
    (updateMemorySize st item oldItem).memoryCache = st.memoryCache := rfl

@[simp] theorem updateMemorySize_storage (st : CacheState)
    (item : CacheItem) (oldItem : Option CacheItem) :
    (updateMemorySize st item oldItem).storage = st.storage := rfl

@[simp] theorem updateMemorySize_stats (st : CacheState)
    (item : CacheItem) (oldItem : Option CacheItem) :
    (updateMemorySize st item oldItem).stats = st.stats := rfl

theorem evictStep_memoryCache (s : CacheState) (kv : String × CacheItem) :
    (evictStep s kv).memoryCache = mapDelete s.memoryCache kv.1 := rfl

theorem evictStep_storage (s : CacheState) (kv : String × CacheItem) :
    (evictStep s kv).storage = s.storage := rfl

theorem mem_insertSorted {α : Type} (lt : α → α → Bool) (x y : α)
    (l : List α) (h : y ∈ insertSorted lt x l) : y = x ∨ y ∈ l := by
  induction l with
  | nil =>
    simp only [insertSorted, List.mem_singleton] at h
    exact Or.inl h
  | cons a t ih =>
    by_cases hlt : lt a x
    · simp only [insertSorted, hlt, if_true] at h
      cases h with
      | head => exact Or.inr (List.mem_cons_self _ _)
      | tail _ h1 =>
        cases ih h1 with
        | inl h2 => exact Or.inl h2
        | inr h2 => exact Or.inr (List.mem_cons_of_mem _ h2)
    · simp only [insertSorted, hlt, if_false] at h
      cases h with
      | head => exact Or.inl rfl
      | tail _ h1 => exact Or.inr h1

theorem mem_sortByLt {α : Type} (lt : α → α → Bool) (y : α) (l : List α)
    (h : y ∈ sortByLt lt l) : y ∈ l := by
  induction l with
  | nil => simp [sortByLt] at h
  | cons a t ih =>
    simp only [sortByLt] at h
    cases mem_insertSorted lt a y (sortByLt lt t) h with
    | inl h1 => exact h1 ▸ List.mem_cons_self _ _
    | inr h1 => exact List.mem_cons_of_mem _ (ih h1)

theorem evictFold_lookup (l : List (String × CacheItem)) (s : CacheState)
    (ck : String) (h : ∀ kv ∈ l, kv.1 ≠ ck) :
    ((l.foldl evictStep s).memoryCache.lookup ck) =
      s.memoryCache.lookup ck := by
  induction l generalizing s with
  | nil => rfl
  | cons kv t ih =>
    have h1 : kv.1 ≠ ck := h kv (List.mem_cons_self _ _)
    have h2 : (evictStep s kv).memoryCache.lookup ck =
        s.memoryCache.lookup ck := by
      rw [evictStep_memoryCache]
      exact lookup_mapDelete_ne s.memoryCache kv.1 ck (fun he => h1 he.symm)
    rw [List.foldl_cons, ih _ (fun x hx => h x (List.mem_cons_of_mem _ hx)), h2]

theorem evictFold_storage (l : List (String × CacheItem)) (s : CacheState) :
    (l.foldl evictStep s).storage = s.storage := by
  induction l generalizing s with
  | nil => rfl
  | cons kv t ih => rw [List.foldl_cons, ih, evictStep_storage]

theorem evictItems_lookup_preserved (s : CacheState) (ns : String)
    (maxSize : Nat) (ck : String)
    (h : (getNamespaceFromKey ck == ns) = false
       ∨ (s.memoryCache.filter
            (fun p => getNamespaceFromKey p.1 == ns)).length ≤ maxSize) :
    (evictItems s ns maxSize).memoryCache.lookup ck =
      s.memoryCache.lookup ck := by
  unfold evictItems
  by_cases hle : (s.memoryCache.filter
      (fun p => getNamespaceFromKey p.1 == ns)).length ≤ maxSize
  · simp only [hle, if_true]
  · simp only [hle, if_false]
    cases h with
    | inl hns =>
      apply evictFold_lookup
      intro kv hkv
      have h2 : kv ∈ sortByLt (fun a b => evictCmpLt a.2 b.2)
          (s.memoryCache.filter (fun p => getNamespaceFromKey p.1 == ns)) :=
        List.take_subset _ _ hkv
      have h3 := mem_sortByLt _ kv _ h2
      have h4 : (getNamespaceFromKey kv.1 == ns) = true :=
        (List.mem_filter.mp h3).2
      intro he
      rw [he, hns] at h4
      exact Bool.false_ne_true h4
    | inr hcnt => exact absurd hcnt hle

theorem evictItems_storage (s : CacheState) (ns : String) (maxSize : Nat) :
    (evictItems s ns maxSize).storage = s.storage := by
  unfold evictItems
  by_cases hle : (s.memoryCache.filter
      (fun p => getNamespaceFromKey p.1 == ns)).length ≤ maxSize
  · simp only [hle, if_true]
  · simp only [hle, if_false]
    exact evictFold_storage _ _

theorem canAdd_count_lt (st : CacheState) (key : String) (item : CacheItem)
    (h : canAddToMemory st key item = true) :
    (st.memoryCache.filter (fun p =>
        getNamespaceFromKey p.1 == getNamespaceFromKey key)).length <
      (getConfig (getNamespaceFromKey key)).maxSize := by
  unfold canAddToMemory at h
  by_cases hc : (getConfig (getNamespaceFromKey key)).maxSize ≤
      (st.memoryCache.filter (fun p =>
        getNamespaceFromKey p.1 == getNamespaceFromKey key)).length
  · simp only [hc, if_true] at h
    exact absurd h Bool.false_ne_true
  · exact Nat.lt_of_not_le hc

theorem hydrateKey_storage (now : Nat) (s : CacheState) (key : String) :
    (hydrateKey now s key).storage = s.storage := by
  unfold hydrateKey
  split
  · split
    · split
      · rfl
      · rfl
    · rfl
  · rfl
  · rfl

theorem hydrateKey_mem_sound (now : Nat) (s : CacheState) (key k : String)
    (it : CacheItem)
    (h : (hydrateKey now s key).memoryCache.lookup k = some it) :
    s.memoryCache.lookup k = some it
    ∨ (k = key ∧ s.storage.lookup key = some (.good it)
        ∧ it.priority = .high ∧ isExpired now it = false) := by
  unfold hydrateKey at h
  cases hs : s.storage.lookup key with
  | none => rw [hs] at h; exact Or.inl h
  | some r =>
    cases r with
    | corrupt => rw [hs] at h; exact Or.inl h
    | good item =>
      rw [hs] at h
      cases hpr : (item.priority == Priority.high && !(isExpired now item)) with
      | false =>
        simp only [hpr, Bool.false_eq_true, if_false] at h
        exact Or.inl h
      | true =>
        cases hca : canAddToMemory s key item with
        | false =>
          simp only [hpr, hca, if_true, Bool.false_eq_true, if_false] at h
          exact Or.inl h
        | true =>
          simp only [hpr, hca, if_true, updateMemorySize_memoryCache] at h
          by_cases hk : k = key
          · subst hk
            rw [lookup_mapSet_self] at h
            have hit : item = it := Option.some.inj h
            subst hit
            have hpr2 := hpr
            rw [Bool.and_eq_true] at hpr2
            rcases hpr2 with ⟨hp1, hp2⟩
            refine Or.inr ⟨rfl, rfl, eq_of_beq hp1, ?_⟩
            cases he : isExpired now item with
            | false => rfl
            | true => rw [he] at hp2; exact absurd hp2 (by simp)
          · rw [lookup_mapSet_ne _ _ _ _ hk] at h
            exact Or.inl h

theorem hydrateFold_storage (ks : List String) (st : CacheState) (now : Nat) :
    ((ks.foldl (hydrateKey now) st).storage) = st.storage := by
  induction ks generalizing st with
  | nil => rfl
  | cons key t ih => rw [List.foldl_cons, ih, hydrateKey_storage]

theorem hydrateFold_sound (ks : List String) (st : CacheState) (now : Nat)
    (k : String) (it : CacheItem)
    (h : (ks.foldl (hydrateKey now) st).memoryCache.lookup k = some it) :
    st.memoryCache.lookup k = some it
    ∨ (st.storage.lookup k = some (.good it)
        ∧ it.priority = .high ∧ isExpired now it = false ∧ k ∈ ks) := by
  induction ks generalizing st with
  | nil => exact Or.inl h
  | cons key t ih =>
    rw [List.foldl_cons] at h
    cases ih (hydrateKey now st key) h with
    | inl h1 =>
      cases hydrateKey_mem_sound now st key k it h1 with
      | inl h2 => exact Or.inl h2
      | inr h2 =>
        rcases h2 with ⟨hk, hs, hp, he⟩
        exact Or.inr ⟨by rw [hk]; exact hs, hp, he,
          by rw [hk]; exact List.mem_cons_self _ _⟩
    | inr h1 =>
      rcases h1 with ⟨hs, hp, he, hm⟩
      rw [hydrateKey_storage] at hs
      exact Or.inr ⟨hs, hp, he, List.mem_cons_of_mem _ hm⟩

theorem clearStep_storage (s : CacheState) (key : String) :
    (clearStep s key).storage = s.storage := by
  unfold clearStep
  split
  · rfl
  · rfl

theorem clearFold_storage (ks : List String) (st : CacheState) :
    (ks.foldl clearStep st).storage = st.storage := by
  induction ks generalizing st with
  | nil => rfl
  | cons key t ih => rw [List.foldl_cons, ih, clearStep_storage]

theorem contains_filter_of_pred_false (s : List String)
    (pred : String → Bool) (k : String) (hk : pred k = false) :
    ((s.filter pred).contains k) = false := by
  cases hc : (s.filter pred).contains k with
  | false => rfl
  | true =>
    have hm : k ∈ s.filter pred := List.mem_of_elem_eq_true hc
    have := (List.mem_filter.mp hm).2
    rw [hk] at this
    exact absurd this (by simp)

theorem contains_filter_of_pred_true (s : List String)
    (pred : String → Bool) (k : String) (hk : pred k = true) (hm : k ∈ s) :
    ((s.filter pred).contains k) = true :=
  List.elem_eq_true_of_mem (List.mem_filter.mpr ⟨hm, hk⟩)

theorem restoreItem_memoryCache (s : CacheState) (kv : String × CacheItem) :
    (restoreItem s kv).memoryCache = mapSet s.memoryCache kv.1 kv.2 := rfl

theorem restoreFold_length (l : List (String × CacheItem)) (st : CacheState) :
    ((l.foldl restoreItem st).memoryCache).length ≤
      st.memoryCache.length + l.length := by
  induction l generalizing st with
  | nil => simp
  | cons kv t ih =>
    rw [List.foldl_cons]
    calc ((t.foldl restoreItem (restoreItem st kv)).memoryCache).length
        ≤ (restoreItem st kv).memoryCache.length + t.length := ih _
      _ ≤ (st.memoryCache.length + 1) + t.length := by
          rw [restoreItem_memoryCache]
          exact Nat.add_le_add_right (length_mapSet_le _ _ _) _
      _ = st.memoryCache.length + (t.length + 1) := by omega

theorem restoreFold_mem (P : String × CacheItem → Prop)
    (l : List (String × CacheItem)) (st : CacheState)
    (hl : ∀ kv ∈ l, P kv) (hst : ∀ kv ∈ st.memoryCache, P kv) :
    ∀ kv ∈ (l.foldl restoreItem st).memoryCache, P kv := by
  induction l generalizing st with
  | nil => exact hst
  | cons kv t ih =>
    rw [List.foldl_cons]
    apply ih _ (fun x hx => hl x (List.mem_cons_of_mem _ hx))
    intro x hx
    rw [restoreItem_memoryCache] at hx
    cases mem_mapSet _ _ _ _ hx with
    | inl h1 => exact hst x h1
    | inr h1 => exact h1 ▸ hl kv (List.mem_cons_self _ _)

/-! ### Behaviour of `set` under admission refusal and admission -/

theorem canAdd_false_of_cap (st : CacheState) (key : String)
    (item : CacheItem)
    (hcap : (getConfig (getNamespaceFromKey key)).maxSize ≤
      (st.memoryCache.filter (fun p =>
        getNamespaceFromKey p.1 == getNamespaceFromKey key)).length) :
    canAddToMemory st key item = false := by
  unfold canAddToMemory
  simp [hcap]

theorem set_refused_state (st : CacheState) (now : Nat) (ns key : String)
    (v : Value)
    (hcan : canAddToMemory st (generateKey ns key)
      (mkCacheItem now ns v) = false) :
    (set st now ns key v).1.memoryCache = st.memoryCache
    ∧ (set st now ns key v).1.currentMemorySize = st.currentMemorySize
    ∧ ((getConfig ns).persist = false →
        (set st now ns key v).1.storage = st.storage)
    ∧ (∀ s2, v.serializedSize = some s2 → (getConfig ns).persist = true →
        (set st now ns key v).1.storage =
          mapSet st.storage (generateKey ns key)
            (.good (mkCacheItem now ns v)))
    ∧ (∀ s2, v.serializedSize = some s2 → (set st now ns key v).2 = true) := by
  cases hp : (getConfig ns).persist with
  | false =>
    refine ⟨by simp [set, hcan, hp], by simp [set, hcan, hp],
      fun _ => by simp [set, hcan, hp],
      fun s2 hs2 hpt => absurd hpt (by decide),
      fun s2 hs2 => by simp [set, hcan, hp]⟩
  | true =>
    cases hs : v.serializedSize with
    | none =>
      refine ⟨by simp [set, hcan, hp, hs], by simp [set, hcan, hp, hs],
        fun hpf => absurd hpf (by decide),
        fun s2 hs2 _ => Option.noConfusion hs2,
        fun s2 hs2 => Option.noConfusion hs2⟩
    | some s0 =>
      refine ⟨by simp [set, hcan, hp, hs], by simp [set, hcan, hp, hs],
        fun hpf => absurd hpf (by decide),
        fun s2 hs2 hpt => by simp [set, hcan, hp, hs],
        fun s2 hs2 => by simp [set, hcan, hp, hs]⟩

theorem set_admitted_lookup (st : CacheState) (now : Nat) (ns key : String)
    (v : Value)
    (hcan : canAddToMemory st (generateKey ns key)
      (mkCacheItem now ns v) = true) :
    (set st now ns key v).1.memoryCache.lookup (generateKey ns key)
      = some (mkCacheItem now ns v) := by
  have hmid : (evictItems
      (updateMemorySize
        { st with memoryCache :=
            mapSet st.memoryCache (generateKey ns key) (mkCacheItem now ns v) }
        (mkCacheItem now ns v)
        (st.memoryCache.lookup (generateKey ns key)))
      ns (getConfig ns).maxSize).memoryCache.lookup (generateKey ns key)
      = some (mkCacheItem now ns v) := by
    rw [evictItems_lookup_preserved]
    · rw [updateMemorySize_memoryCache]
      exact lookup_mapSet_self _ _ _
    · cases hns : getNamespaceFromKey (generateKey ns key) == ns with
      | false => exact Or.inl rfl
      | true =>
        refine Or.inr ?_
        rw [updateMemorySize_memoryCache]
        dsimp only
        have hlt := canAdd_count_lt st (generateKey ns key)
          (mkCacheItem now ns v) hcan
        have hnse : getNamespaceFromKey (generateKey ns key) = ns :=
          eq_of_beq hns
        rw [hnse] at hlt
        have hle : (List.filter (fun p => getNamespaceFromKey p.1 == ns)
            (mapSet st.memoryCache (generateKey ns key)
              (mkCacheItem now ns v))).length ≤
            (List.filter (fun p => getNamespaceFromKey p.1 == ns)
              st.memoryCache).length + 1 :=
          length_filter_key_mapSet st.memoryCache (generateKey ns key)
            (mkCacheItem now ns v) (fun x => getNamespaceFromKey x == ns)
        omega
  unfold set
  cases hp : (getConfig ns).persist with
  | false => simpa [hcan, hp] using hmid
  | true =>
    cases hs : v.serializedSize with
    | none => simpa [hcan, hp, hs] using hmid
    | some s0 => simpa [hcan, hp, hs] using hmid

theorem set_ret_true (st : CacheState) (now : Nat) (ns key : String)
    (v : Value) (s2 : Nat) (hser : v.serializedSize = some s2) :
    (set st now ns key v).2 = true := by
  unfold set
  cases hp : (getConfig ns).persist with
  | false => simp [hp]
  | true => simp [hp, hser]

theorem set_memoryCache_nostorage (st : CacheState) (now : Nat)
    (ns key : String) (v : Value) :
    (set st now ns key v).1.memoryCache =
      (if canAddToMemory st (generateKey ns key) (mkCacheItem now ns v) then
        evictItems
          (updateMemorySize
            { st with memoryCache :=
                mapSet st.memoryCache (generateKey ns key) (mkCacheItem now ns v) }
            (mkCacheItem now ns v)
            (st.memoryCache.lookup (generateKey ns key)))
          ns (getConfig ns).maxSize
       else st).memoryCache := by
  unfold set
  cases hp : (getConfig ns).persist with
  | false => simp [hp]
  | true =>
    cases hs : v.serializedSize with
    | none => simp [hp, hs]
    | some s0 => simp [hp, hs]

/-! ### Claim C1 — size-accounting invariant -/

/-- C1: the spec's size-accounting invariant (`currentMemorySize` equals
the sum of resident item sizes after every operation) is broken by the
code itself: `remove` (like eviction and expiration purges) calls
`updateMemorySize(key, item)` with no old-item argument, which ADDS the
removed item's size instead of subtracting it, although the call sites'
comments say "This will subtract the size". Concretely, from the empty
cache, `set("shops","k",v)` with a 10-byte value followed by
`remove("shops","k")` leaves an empty hot tier but a byte counter of 20
(10 added on insert, 10 more added on removal) where the invariant
demands 0. -/
theorem sizeAccounting_code_bug :
    ((remove ((set emptyState 0 "shops" "k" v10).1) "shops" "k").1.memoryCache
        = [])
    ∧ ((remove ((set emptyState 0 "shops" "k" v10).1) "shops"
        "k").1.currentMemorySize = 20) := by
  decide

/-! ### Claim C2 — admission cap and victim selection -/

/-- C2 counterexample: in the `user` namespace (`maxItemCount = 1`),
inserting the 2 distinct keys `a` (at t=0) then `b` (at t=1) leaves `a`
resident and `b` absent, even though `a`'s item is strictly least by the
eviction comparator (same priority, older `lastAccessed`) — the claim
says the comparator-least key is the one left non-resident. -/
theorem admissionCap_counterexample :
    ((set stUserOne 1 "user" "b" vB).1.memoryCache.lookup "cache:user:a"
        = some (mkCacheItem 0 "user" v10))
    ∧ ((set stUserOne 1 "user" "b" vB).1.memoryCache.lookup "cache:user:b"
        = none)
    ∧ evictCmpLt (mkCacheItem 0 "user" v10) (mkCacheItem 1 "user" vB)
        = true := by
  decide

/-- C2 (amended): inserting `maxItemCount+1` distinct keys into one
namespace leaves exactly `maxItemCount` resident, but the non-resident
key is the LAST-inserted one: once the namespace is at its cap,
`canAddToMemory` refuses admission and `set` leaves the hot tier
untouched, so the comparator-driven eviction never selects a victim on
this path. The first conjunct is the general refusal fact; the second
shows the concrete 2-inserts-into-`user` run ending with exactly the
first key resident. -/
theorem admissionCap_amended :
    (∀ (st : CacheState) (now : Nat) (ns key : String) (v : Value),
      canAddToMemory st (generateKey ns key) (mkCacheItem now ns v) = false →
        (set st now ns key v).1.memoryCache = st.memoryCache)
    ∧ (set stUserOne 1 "user" "b" vB).1.memoryCache
        = [("cache:user:a", mkCacheItem 0 "user" v10)] := by
  constructor
  · intro st now ns key v hcan
    exact (set_refused_state st now ns key v hcan).1
  · decide

/-- C2 witness: a third distinct key is likewise refused at the cap,
leaving the hot tier exactly as it was. -/
theorem admissionCap_amended_witness :
    (set stUserOne 1 "user" "c" vB).1.memoryCache = stUserOne.memoryCache :=
  admissionCap_amended.1 stUserOne 1 "user" "c" vB (by decide)

/-! ### Claim C5 — set failure contract -/

/-- C5 counterexample: for a value on which serialization throws, in the
non-persisting `shops` namespace, `set` returns `true` (the claim says
`false`) and the item IS admitted to the hot tier with the swallowed
1KB default size estimate (the claim says admission is skipped). -/
theorem setFailure_counterexample :
    (set emptyState 0 "shops" "k" badValue).2 = true
    ∧ ((set emptyState 0 "shops" "k" badValue).1.memoryCache.lookup
        "cache:shops:k" = some (mkCacheItem 0 "shops" badValue))
    ∧ (mkCacheItem 0 "shops" badValue).size = some 1024 := by
  decide

/-- C5 (amended): a serialization failure during size estimation is
caught inside `estimateSize` (1KB default) and affects neither hot-tier
admission nor the return value; `set` returns `false` exactly when the
durable write-through path fails — in this embedding (durable I/O
modelled reliable) precisely when the namespace persists and the value
cannot be serialized, the failing `JSON.stringify` of the record. An
admission refusal alone still returns `true`. -/
theorem setFailure_amended (st : CacheState) (now : Nat) (ns key : String)
    (v : Value) :
    (set st now ns key v).2 = false ↔
      ((getConfig ns).persist = true ∧ v.serializedSize = none) := by
  unfold set
  cases hp : (getConfig ns).persist with
  | false => simp [hp]
  | true =>
    cases hs : v.serializedSize with
    | none => simp [hp, hs]
    | some s0 => simp [hp, hs]

/-! ### Claim C9 — replacement denied at cap -/

/-- C9: when a namespace's hot-tier item count has reached its
`maxItemCount`, a `set` on a key already resident there is refused by
`canAddToMemory` (which counts the resident entry itself), so the whole
hot tier — in particular that key's entry — and the byte counter are
left unchanged, the call returns `true`, and only the durable copy is
updated when the namespace persists. -/
theorem replacementDeniedAtCap (st : CacheState) (now : Nat)
    (ns key : String) (v : Value) (s2 : Nat) (oldIt : CacheItem)
    (hser : v.serializedSize = some s2)
    (_hres : st.memoryCache.lookup (generateKey ns key) = some oldIt)
    (hcap : (getConfig (getNamespaceFromKey (generateKey ns key))).maxSize ≤
      (st.memoryCache.filter (fun p =>
        getNamespaceFromKey p.1 ==
          getNamespaceFromKey (generateKey ns key))).length) :
    (set st now ns key v).2 = true
    ∧ (set st now ns key v).1.memoryCache = st.memoryCache
    ∧ (set st now ns key v).1.currentMemorySize = st.currentMemorySize
    ∧ ((getConfig ns).persist = true →
        (set st now ns key v).1.storage =
          mapSet st.storage (generateKey ns key)
            (.good (mkCacheItem now ns v)))
    ∧ ((getConfig ns).persist = false →
        (set st now ns key v).1.storage = st.storage) := by
  have hcan : canAddToMemory st (generateKey ns key)
      (mkCacheItem now ns v) = false :=
    canAdd_false_of_cap st (generateKey ns key) (mkCacheItem now ns v) hcap
  have h := set_refused_state st now ns key v hcan
  exact ⟨h.2.2.2.2 s2 hser, h.1, h.2.1,
    fun hpt => h.2.2.2.1 s2 hser hpt, h.2.2.1⟩

/-- C9 witness: the `user` namespace at its cap of 1, `set` on the
resident key `a` with a new value leaves the hot tier unchanged and
returns `true`. -/
theorem replacementDeniedAtCap_witness :
    (set stUserOne 1 "user" "a" vB).1.memoryCache = stUserOne.memoryCache
    ∧ (set stUserOne 1 "user" "a" vB).2 = true :=
  ⟨(replacementDeniedAtCap stUserOne 1 "user" "a" vB 7
      (mkCacheItem 0 "user" v10) (by decide) (by decide) (by decide)).2.1,
   (replacementDeniedAtCap stUserOne 1 "user" "a" vB 7
      (mkCacheItem 0 "user" v10) (by decide) (by decide) (by decide)).1⟩

/-! ### Claim C7 — hydration pass -/

/-- C7 counterexample: the hydration pass leaves the durable store
completely untouched — in particular a corrupt record and an expired
record (here read at time 200, past the 100ms ttl) both remain stored,
although the claim says every scanned record that is expired or fails to
parse is removed from the durable store. Neither is admitted to the hot
tier. -/
theorem hydration_counterexample :
    (loadPersistedHighPriorityItems stHydBad 200).storage = stHydBad.storage
    ∧ stHydBad.storage.lookup "cache:user:c" = some .corrupt
    ∧ stHydBad.storage.lookup "cache:user:e" = some (.good expiredUserItem)
    ∧ isExpired 200 expiredUserItem = true
    ∧ (loadPersistedHighPriorityItems stHydBad 200).memoryCache = [] := by
  decide

/-- C7 (amended): the hydration pass scans the durable keys with the
`cache:` prefix and never removes anything from the durable store
(expired and unparsable records are merely skipped; their deletion is
left to the expiration sweep); every entry it adds to the hot tier is a
parsed durable record under its own `cache:`-prefixed key whose priority
is `high` and which is not expired — admission is additionally subject
to `canAddToMemory` at the moment the key is processed. -/
theorem hydration_amended (st : CacheState) (now : Nat) :
    (loadPersistedHighPriorityItems st now).storage = st.storage
    ∧ ∀ (k : String) (it : CacheItem),
        (loadPersistedHighPriorityItems st now).memoryCache.lookup k
          = some it →
        st.memoryCache.lookup k = some it
        ∨ (st.storage.lookup k = some (.good it)
            ∧ it.priority = .high ∧ isExpired now it = false
            ∧ startsWithCachePfx k = true) := by
  constructor
  · exact hydrateFold_storage _ _ _
  · intro k it h
    unfold loadPersistedHighPriorityItems at h
    cases hydrateFold_sound _ _ _ _ _ h with
    | inl h1 => exact Or.inl h1
    | inr h1 =>
      rcases h1 with ⟨hs, hp2, he, hm⟩
      exact Or.inr ⟨hs, hp2, he, (List.mem_filter.mp hm).2⟩

/-- C7 witness: a fresh high-priority durable record is admitted to the
hot tier by hydration, and the soundness direction reports it as such. -/
theorem hydration_amended_witness :
    stHyd.memoryCache.lookup "cache:user:h" = some freshHigh
    ∨ (stHyd.storage.lookup "cache:user:h" = some (.good freshHigh)
        ∧ freshHigh.priority = .high ∧ isExpired 0 freshHigh = false
        ∧ startsWithCachePfx "cache:user:h" = true) :=
  (hydration_amended stHyd 0).2 "cache:user:h" freshHigh (by decide)

/-! ### Claim C8 — footprint shrink -/

/-- C8: on the background/inactive lifecycle transition, a hot tier of
50 or fewer items is left unchanged; a hot tier of more than 50 items is
reduced to at most 75 resident items, every survivor having priority
`high` or `medium`. -/
theorem footprintShrink_spec (st : CacheState) :
    (st.memoryCache.length ≤ 50 →
      handleAppStateChange .background st = st)
    ∧ (50 < st.memoryCache.length →
        (handleAppStateChange .background st).memoryCache.length ≤ 75
        ∧ ∀ p ∈ (handleAppStateChange .background st).memoryCache,
            p.2.priority = .high ∨ p.2.priority = .medium) := by
  constructor
  · intro hle
    show reduceMemoryFootprint st = st
    unfold reduceMemoryFootprint
    rw [if_pos hle]
  · intro hgt
    have hne : ¬ st.memoryCache.length ≤ 50 := Nat.not_le.mpr hgt
    have hlen : ((st.memoryCache.filter (fun p =>
        p.2.priority == Priority.high
          || p.2.priority == Priority.medium)).take 75).length ≤ 75 := by
      rw [List.length_take]
      exact Nat.min_le_left _ _
    have hmem : ∀ kv ∈ (st.memoryCache.filter (fun p =>
        p.2.priority == Priority.high
          || p.2.priority == Priority.medium)).take 75,
        kv.2.priority = Priority.high ∨ kv.2.priority = Priority.medium := by
      intro kv hkv
      have h1 := (List.mem_filter.mp (List.take_subset _ _ hkv)).2
      rw [Bool.or_eq_true] at h1
      cases h1 with
      | inl h2 => exact Or.inl (eq_of_beq h2)
      | inr h2 => exact Or.inr (eq_of_beq h2)
    constructor
    · show (reduceMemoryFootprint st).memoryCache.length ≤ 75
      unfold reduceMemoryFootprint
      rw [if_neg hne]
      refine le_trans (restoreFold_length _ _) ?_
      simp only [List.length_nil, Nat.zero_add]
      exact hlen
    · show ∀ p ∈ (reduceMemoryFootprint st).memoryCache,
        p.2.priority = .high ∨ p.2.priority = .medium
      unfold reduceMemoryFootprint
      rw [if_neg hne]
      exact restoreFold_mem _ _ _ hmem (fun kv hkv => absurd hkv
        (List.not_mem_nil kv))

/-- C8 witness: the empty hot tier is untouched by backgrounding, and a
concrete 51-item mixed-priority hot tier is shrunk to at most 75
items. -/
theorem footprintShrink_spec_witness :
    emptyState.memoryCache.length ≤ 50
    ∧ handleAppStateChange .background emptyState = emptyState
    ∧ 50 < bigState.memoryCache.length
    ∧ (handleAppStateChange .background bigState).memoryCache.length ≤ 75 :=
  ⟨by decide, (footprintShrink_spec emptyState).1 (by decide), by decide,
   ((footprintShrink_spec bigState).2 (by decide)).1⟩

/-! ### Claim C10 — clearNamespace durable-key selection -/

/-- C10: for a persisting namespace, `clearNamespace` removes from the
durable store exactly the keys whose extracted namespace (second
`':'`-separated segment, with a falsy fallback to `default`) equals the
namespace — the key list is taken from ALL durable keys, not just those
with the `cache:` prefix, so foreign durable keys can be deleted. -/
theorem clearNamespace_durableSelection (st : CacheState) (ns : String)
    (hp : (getConfig ns).persist = true) :
    (clearNamespace st ns).1.storage =
      st.storage.filter (fun p => !(getNamespaceFromKey p.1 == ns)) := by
  have hst1 := clearFold_storage
    ((st.memoryCache.map Prod.fst).filter
      (fun k => getNamespaceFromKey k == ns)) st
  unfold clearNamespace
  simp only [hp, if_true, hst1]
  by_cases hn : 0 < ((st.storage.map Prod.fst).filter
      (fun k => getNamespaceFromKey k == ns)).length
  · simp only [hn, if_true]
    apply List.filter_congr
    intro p hmem
    cases hq : getNamespaceFromKey p.1 == ns with
    | true =>
      rw [contains_filter_of_pred_true (st.storage.map Prod.fst)
        (fun k => getNamespaceFromKey k == ns) p.1 hq
        (List.mem_map_of_mem Prod.fst hmem)]
    | false =>
      rw [contains_filter_of_pred_false (st.storage.map Prod.fst)
        (fun k => getNamespaceFromKey k == ns) p.1 hq]
  · simp only [hn, if_false]
    rw [hst1]
    have h0 : ((st.storage.map Prod.fst).filter
        (fun k => getNamespaceFromKey k == ns)) = [] :=
      List.length_eq_zero.mp (Nat.eq_zero_of_not_pos hn)
    have hall := List.filter_eq_nil_iff.mp h0
    refine (List.filter_eq_self.mpr ?_).symm
    intro p hmem
    cases hq : getNamespaceFromKey p.1 == ns with
    | true =>
      exact absurd hq (by
        have := hall p.1 (List.mem_map_of_mem Prod.fst hmem)
        simpa using this)
    | false => rfl

/-- C10 witness: clearing the persisting `user` namespace deletes both
the `cache:`-prefixed `user` key and the foreign key `x:user:y` that was
never written by the cache, leaving only the `services` key. -/
theorem clearNamespace_durableSelection_witness :
    (clearNamespace stClear "user").1.storage =
      [("cache:services:w", .good freshHigh)] := by
  rw [clearNamespace_durableSelection stClear "user" (by decide)]
  decide

/-! ### Claim C3 — expiration correctness of get -/

/-- C3: `get` never serves an item whose age strictly exceeds its ttl:
an expired hot-tier entry is deleted from the hot tier and the call
returns `null`; an expired durable record (for a persisting namespace,
the hot tier missing) is removed from the durable store and the call
returns `null`; and every value `get` does return is the payload of a
non-expired item found in the hot tier or the durable store. -/
theorem get_expiration (st : CacheState) (now : Nat) (ns key : String) :
    (∀ it, st.memoryCache.lookup (generateKey ns key) = some it →
      isExpired now it = true →
        (get st now ns key).2 = none
        ∧ (get st now ns key).1.memoryCache.lookup (generateKey ns key)
            = none)
    ∧ (∀ it, st.memoryCache.lookup (generateKey ns key) = none →
        st.storage.lookup (generateKey ns key) = some (.good it) →
        isExpired now it = true →
        (getConfig ns).persist = true →
          (get st now ns key).2 = none
          ∧ (get st now ns key).1.storage.lookup (generateKey ns key)
              = none)
    ∧ (∀ v, (get st now ns key).2 = some v →
        ∃ it, isExpired now it = false ∧ v = it.data
          ∧ (st.memoryCache.lookup (generateKey ns key) = some it
             ∨ st.storage.lookup (generateKey ns key) = some (.good it))) := by
  refine ⟨?_, ?_, ?_⟩
  · intro it hm he
    constructor
    · simp [get, hm, he]
    · simp only [get, hm, he, if_true, updateMemorySize_memoryCache]
      exact lookup_mapDelete_self _ _
  · intro it hm hs he hpt
    constructor
    · simp [get, hm, hs, he, hpt]
    · simp only [get, hm, hs, he, hpt, if_true]
      exact lookup_mapDelete_self _ _
  · intro v hv
    cases hm : st.memoryCache.lookup (generateKey ns key) with
    | some it =>
      cases he : isExpired now it with
      | true =>
        simp [get, hm, he] at hv
      | false =>
        simp only [get, hm, he, Bool.false_eq_true, if_false] at hv
        refine ⟨it, he, ?_, Or.inl rfl⟩
        have h2 : (updateAccess now it).data = v := Option.some.inj hv
        rw [← h2]
        rfl
    | none =>
      cases hpt : (getConfig ns).persist with
      | false => simp [get, hm, hpt] at hv
      | true =>
        cases hs : st.storage.lookup (generateKey ns key) with
        | none => simp [get, hm, hpt, hs] at hv
        | some r =>
          cases r with
          | corrupt => simp [get, hm, hpt, hs] at hv
          | good pit =>
            cases he : isExpired now pit with
            | true => simp [get, hm, hpt, hs, he] at hv
            | false =>
              simp only [get, hm, hpt, hs, he, if_true,
                Bool.false_eq_true, if_false] at hv
              exact ⟨pit, he, (Option.some.inj hv).symm, Or.inr rfl⟩

/-- C3 witness: the expired `user` item read at time 200 (ttl 100ms,
written at 0) yields `null` and its hot-tier entry is purged. -/
theorem get_expiration_witness :
    (get stExpiredHot 200 "user" "k").2 = none
    ∧ (get stExpiredHot 200 "user" "k").1.memoryCache.lookup
        (generateKey "user" "k") = none :=
  (get_expiration stExpiredHot 200 "user" "k").1 expiredUserItem
    (by decide) (by decide)

/-! ### Claim C4 — get stats and fail-open behaviour -/

/-- C4 counterexample: reading an expired hot-tier entry increments
NEITHER hits, misses, nor errors (only totalRequests), and returns
`null` — contradicting the claim that every `get` increments exactly one
of hits or misses, with errors substituting only on I/O or parse
failures. -/
theorem getStats_counterexample :
    (get stExpiredHot2 200 "appointments" "k").1.stats.hits = 0
    ∧ (get stExpiredHot2 200 "appointments" "k").1.stats.misses = 0
    ∧ (get stExpiredHot2 200 "appointments" "k").1.stats.errors = 0
    ∧ (get stExpiredHot2 200 "appointments" "k").1.stats.totalRequests = 1
    ∧ (get stExpiredHot2 200 "appointments" "k").2 = none := by
  decide

/-- C4 (amended): every `get` completes (the embedding is total, as the
source catches every exception), increments `totalRequests`, and then
either (i) counts a hit, (ii) counts a miss returning `null`, (iii)
counts an error returning `null` — exactly when the durable record for
the key is corrupt, the parse failure — or (iv) hits the expired
hot-tier branch, returning `null` while counting neither a hit, a miss,
nor an error. -/
theorem getStats_amended (st : CacheState) (now : Nat) (ns key : String) :
    (get st now ns key).1.stats.totalRequests = st.stats.totalRequests + 1
    ∧ (((get st now ns key).1.stats.hits = st.stats.hits + 1
          ∧ (get st now ns key).1.stats.misses = st.stats.misses
          ∧ (get st now ns key).1.stats.errors = st.stats.errors)
       ∨ ((get st now ns key).1.stats.misses = st.stats.misses + 1
          ∧ (get st now ns key).1.stats.hits = st.stats.hits
          ∧ (get st now ns key).1.stats.errors = st.stats.errors
          ∧ (get st now ns key).2 = none)
       ∨ ((get st now ns key).1.stats.errors = st.stats.errors + 1
          ∧ (get st now ns key).1.stats.hits = st.stats.hits
          ∧ (get st now ns key).1.stats.misses = st.stats.misses
          ∧ (get st now ns key).2 = none
          ∧ st.storage.lookup (generateKey ns key) = some .corrupt)
       ∨ ((get st now ns key).1.stats.hits = st.stats.hits
          ∧ (get st now ns key).1.stats.misses = st.stats.misses
          ∧ (get st now ns key).1.stats.errors = st.stats.errors
          ∧ (get st now ns key).2 = none
          ∧ ∃ it, st.memoryCache.lookup (generateKey ns key) = some it
              ∧ isExpired now it = true)) := by
  cases hm : st.memoryCache.lookup (generateKey ns key) with
  | some it =>
    cases he : isExpired now it with
    | true =>
      refine ⟨by simp [get, hm, he],
        Or.inr (Or.inr (Or.inr ⟨by simp [get, hm, he], by simp [get, hm, he],
          by simp [get, hm, he], by simp [get, hm, he], it, rfl, he⟩))⟩
    | false =>
      refine ⟨by simp [get, hm, he],
        Or.inl ⟨by simp [get, hm, he], by simp [get, hm, he],
          by simp [get, hm, he]⟩⟩
  | none =>
    cases hpt : (getConfig ns).persist with
    | false =>
      refine ⟨by simp [get, hm, hpt],
        Or.inr (Or.inl ⟨by simp [get, hm, hpt], by simp [get, hm, hpt],
          by simp [get, hm, hpt], by simp [get, hm, hpt]⟩)⟩
    | true =>
      cases hs : st.storage.lookup (generateKey ns key) with
      | none =>
        refine ⟨by simp [get, hm, hpt, hs],
          Or.inr (Or.inl ⟨by simp [get, hm, hpt, hs],
            by simp [get, hm, hpt, hs], by simp [get, hm, hpt, hs],
            by simp [get, hm, hpt, hs]⟩)⟩
      | some r =>
        cases r with
        | corrupt =>
          refine ⟨by simp [get, hm, hpt, hs],
            Or.inr (Or.inr (Or.inl ⟨by simp [get, hm, hpt, hs],
              by simp [get, hm, hpt, hs], by simp [get, hm, hpt, hs],
              by simp [get, hm, hpt, hs], rfl⟩))⟩
        | good pit =>
          cases he : isExpired now pit with
          | true =>
            refine ⟨by simp [get, hm, hpt, hs, he],
              Or.inr (Or.inl ⟨by simp [get, hm, hpt, hs, he],
                by simp [get, hm, hpt, hs, he],
                by simp [get, hm, hpt, hs, he],
                by simp [get, hm, hpt, hs, he]⟩)⟩
          | false =>
            cases hc : canAddToMemory
                { st with stats :=
                    { st.stats with
                      totalRequests := st.stats.totalRequests + 1 } }
                (generateKey ns key) pit with
            | true =>
              refine ⟨by simp [get, hm, hpt, hs, he, hc],
                Or.inl ⟨by simp [get, hm, hpt, hs, he, hc],
                  by simp [get, hm, hpt, hs, he, hc],
                  by simp [get, hm, hpt, hs, he, hc]⟩⟩
            | false =>
              refine ⟨by simp [get, hm, hpt, hs, he, hc],
                Or.inl ⟨by simp [get, hm, hpt, hs, he, hc],
                  by simp [get, hm, hpt, hs, he, hc],
                  by simp [get, hm, hpt, hs, he, hc]⟩⟩

/-! ### Claim C6 — round-trip / read-your-write -/

/-- C6 counterexample: in the non-persisting `shops` namespace, a
serializable 60MB value exceeds the 50MB global byte budget, so the hot
tier refuses it; `set` still returns `true`, and the immediate `get`
(at the same instant, far within the 1h ttl) returns `null` instead of
the value — the round-trip claim fails for this serializable value. -/
theorem roundTrip_counterexample :
    (set emptyState 0 "shops" "k" hugeValue).2 = true
    ∧ isExpired 0 (mkCacheItem 0 "shops" hugeValue) = false
    ∧ (get (set emptyState 0 "shops" "k" hugeValue).1 0 "shops" "k").2
        = none := by
  decide

/-- C6 (amended): `set(ns,k,v)` immediately followed by `get(ns,k)`
within the namespace ttl returns `v`, provided the hot tier admits the
write (`canAddToMemory`), or the namespace persists and the key is not
already hot-resident (a refused replacement would leave a stale
hot-tier entry shadowing the just-written durable copy, and a refused
non-persisted write is simply lost). -/
theorem roundTrip_amended (st : CacheState) (now nowR : Nat)
    (ns key : String) (v : Value) (s2 : Nat)
    (hser : v.serializedSize = some s2)
    (hfresh : (nowR : Int) - (now : Int) ≤ ((getConfig ns).ttl : Int))
    (hadm : canAddToMemory st (generateKey ns key)
        (mkCacheItem now ns v) = true
      ∨ ((getConfig ns).persist = true
          ∧ st.memoryCache.lookup (generateKey ns key) = none)) :
    (get ((set st now ns key v).1) nowR ns key).2 = some v := by
  have hexp : isExpired nowR (mkCacheItem now ns v) = false := by
    have h1 : ¬ ((nowR : Int) - (((mkCacheItem now ns v).timestamp : Nat) : Int)
        > (((mkCacheItem now ns v).ttl : Nat) : Int)) := by
      simp only [mkCacheItem]
      exact not_lt.mpr hfresh
    exact decide_eq_false h1
  cases hcan : canAddToMemory st (generateKey ns key)
      (mkCacheItem now ns v) with
  | true =>
    have hmid := set_admitted_lookup st now ns key v hcan
    simp only [get, hmid, hexp, Bool.false_eq_true, if_false]
    rfl
  | false =>
    have hpn : (getConfig ns).persist = true
        ∧ st.memoryCache.lookup (generateKey ns key) = none := by
      cases hadm with
      | inl h1 => rw [hcan] at h1; exact absurd h1 (by decide)
      | inr h1 => exact h1
    have href := set_refused_state st now ns key v hcan
    have hmem : ((set st now ns key v).1).memoryCache.lookup
        (generateKey ns key) = none := by
      rw [href.1]
      exact hpn.2
    have hsto : ((set st now ns key v).1).storage.lookup
        (generateKey ns key) = some (.good (mkCacheItem now ns v)) := by
      rw [href.2.2.2.1 s2 hser hpn.1]
      exact lookup_mapSet_self _ _ _
    simp only [get, hmem, hsto, hpn.1, hexp, if_true, Bool.false_eq_true,
      if_false]
    rfl

/-- C6 witness: from the empty cache, a 10-byte value written to the
persisting `user` namespace is read back intact one millisecond later. -/
theorem roundTrip_amended_witness :
    (get ((set emptyState 0 "user" "w" v10).1) 1 "user" "w").2
      = some v10 :=
  roundTrip_amended emptyState 0 1 "user" "w" v10 10 (by decide)
    (by decide) (Or.inl (by decide))

end PerfCache
